import Mathlib

/-!
Verification of `fetch_logos.py` (auto-brand-logos).

The script resolves brand names to Wikidata entities, fetches the P154
(logo image) claim, downloads the image from Wikimedia Commons (thumbnail
endpoint first, direct file path as fallback), normalizes it to a 128x128
RGBA canvas with an 8-pixel margin, writes one PNG per brand, and prints a
per-brand status line plus a summary; the process exit code is 0 iff at
least one brand succeeded.

Modelling choices:
* Network responses, PIL image decoding, the LANCZOS resampling kernel and
  file writes are oracles collected in an `Env`.  Every external operation
  (HTTP request, image decode, file write) is also recorded in a request
  trace, so that claims such as "no download is attempted" are statements
  about the trace.
* A Python function that may raise maps to the monad `M` below: it returns
  `Except String` (the `String` is the exception description) together with
  the trace of requests issued before returning or raising.
* Python truthiness of `Optional[str]` / `Optional[bytes]` (`None` and
  empty values are falsy) is modelled explicitly at each `if not x` site.
* Machine images are `Nat`-indexed pixel grids of 8-bit RGBA channels.
  `ImageOps.contain` computes its target size with Python floats; it is
  modelled with exact rational arithmetic and round-half-to-even
  (`pyRound`), which agrees with the float computation for all realistic
  image dimensions.
* `Image.paste(img, offset, img)` blends each channel with the pasted
  image's own alpha band as mask; the blend is modelled as linear
  interpolation with floor division.  The claims only depend on the blend
  at mask value 0 (keeps the destination) and on pixels outside the paste
  box (untouched), where any rounding convention agrees with PIL.
-/

/-- Raw image bytes (Python `bytes`), one `Nat` per byte. -/
abbrev Bytes := List Nat

/-- An RGBA pixel, one `Nat` per 8-bit channel. -/
structure RGBA where
  r : Nat
  g : Nat
  b : Nat
  a : Nat
deriving DecidableEq, Repr

/-- An in-memory RGBA image (PIL image after `convert("RGBA")`):
`pixel x y` is the pixel in column `x`, row `y`. -/
structure Img where
  width : Nat
  height : Nat
  pixel : Nat → Nat → RGBA

/-- The `datavalue` node of a Wikidata snak: its `value` field when
present (a missing field raises `KeyError` in Python, which
`wikidata_get_logo_filename` catches). -/
structure Datavalue where
  value : Option String
deriving DecidableEq, Repr

/-- A snak: its `datavalue` field when present. -/
structure Snak where
  datavalue : Option Datavalue
deriving DecidableEq, Repr

/-- One claim of the `wbgetclaims` response: its `mainsnak` field when
present. -/
structure Claim where
  mainsnak : Option Snak
deriving DecidableEq, Repr

/-- Body of a `wbgetclaims` response, reduced to what the script reads:
`none` when `"P154"` is absent from the claims mapping, otherwise the list
of claims stored under `"P154"`. -/
abbrev ClaimsResp := Option (List Claim)

/-- One external operation performed by the script: a `wbsearchentities`
request, a `wbgetclaims` request, an HTTP GET of an image URL, a PIL
decode of downloaded bytes (the normalizer running), or a file write. -/
inductive Req where
  | search (name lang : String) (limit : Nat)
  | getClaims (qid : String)
  | getUrl (url : String)
  | decodeImage (bytes : Bytes)
  | write (name : String)
deriving DecidableEq, Repr

/-- Oracles for everything outside the script: the Wikidata search and
claims endpoints, raw HTTP image fetches, PIL decoding, the LANCZOS
resampling kernel, file writes, and the contents of the brands file.
`Except.error e` models the call raising an exception described by `e`. -/
structure Env where
  search : String → String → Nat → Except String (List (Option String))
  claims : String → Except String ClaimsResp
  http : String → Except String Bytes
  decode : Bytes → Option Img
  resample : Img → Nat × Nat → Nat → Nat → RGBA
  save : String → Except String Unit
  brandsFile : String

/-- A possibly-raising computation over the oracles, returning its result
(or the exception raised) together with the trace of requests issued. -/
def M (α : Type) : Type := Env → Except String α × List Req

/-- Return a value, issuing no requests. -/
def mpure {α : Type} (a : α) : M α := fun _ => (Except.ok a, [])

/-- Sequencing: an exception in `m` aborts (the requests already issued
stay in the trace), mirroring Python exception propagation. -/
def mbind {α β : Type} (m : M α) (f : α → M β) : M β := fun env =>
  match m env with
  | (Except.ok a, t1) =>
    match f a env with
    | (r, t2) => (r, t1 ++ t2)
  | (Except.error e, t1) => (Except.error e, t1)

/-- A bare `try ... except Exception: ...` around `m`: an exception is
swallowed and surfaced as `none`. -/
def attempt {α : Type} (m : M α) : M (Option α) := fun env =>
  match m env with
  | (Except.ok a, t) => (Except.ok (some a), t)
  | (Except.error _, t) => (Except.ok none, t)

/-- A `wbsearchentities` API call (the `SESSION.get` plus
`raise_for_status` plus JSON extraction of the `search` entries'
optional `id` fields). -/
def searchReq (name lang : String) (limit : Nat) : M (List (Option String)) :=
  fun env => (env.search name lang limit, [Req.search name lang limit])

/-- A `wbgetclaims` API call for property P154. -/
def claimsReq (qid : String) : M ClaimsResp :=
  fun env => (env.claims qid, [Req.getClaims qid])

/-- An HTTP GET returning the response body bytes
(`SESSION.get` plus `raise_for_status` plus `.content`). -/
def httpGet (url : String) : M Bytes :=
  fun env => (env.http url, [Req.getUrl url])

/-- The `img.save(out_path, format="PNG")` call. -/
def saveImage (name : String) : M Unit :=
  fun env => (env.save name, [Req.write name])

/-! ### Pure string helpers -/

/-- ASCII whitespace stripped by Python `str.strip()`.  (Python also
strips the rarer Unicode space code points; they play no role in any
stated property, which only depend on the strip being applied.) -/
def pyWhitespace (c : Char) : Bool :=
  c = ' ' || c = '\t' || c = '\n' || c = '\r' || c = '\x0b' || c = '\x0c'

/-- Python `str.strip()`: drop leading and trailing whitespace. -/
def pyStrip (s : String) : String :=
  String.mk (((s.data.dropWhile pyWhitespace).reverse.dropWhile pyWhitespace).reverse)

/-- The characters of `SAFE_FILENAME_PATTERN`, i.e. the regex character
class matching a backslash, slash, colon, asterisk, question mark, double
quote, angle brackets and pipe. -/
def badFileChar (c : Char) : Bool :=
  c = '\\' || c = '/' || c = ':' || c = '*' || c = '?' || c = '\"' || c = '<' || c = '>' || c = '|'

/-- Source: `sanitize_filename` — replace every filesystem-unsafe
character by an underscore (`SAFE_FILENAME_PATTERN.sub("_", name)`), then
strip whitespace. -/
def sanitize_filename (name : String) : String :=
  pyStrip (String.mk (name.data.map (fun c => if badFileChar c then '_' else c)))

/-- Split a character stream at newline characters, accumulating the
current line in reverse. -/
def splitLinesAux : List Char → List Char → List String
  | [], acc => [String.mk acc.reverse]
  | c :: cs, acc =>
    if c = '\n' then String.mk acc.reverse :: splitLinesAux cs []
    else splitLinesAux cs (c :: acc)

/-- Iterating over the lines of an opened text file (Python splits on
newline; universal-newline translation has already turned CRLF into LF in
the text we are handed). -/
def pyLines (text : String) : List String := splitLinesAux text.data []

/-- Python `str.startswith`: prefix test on the character sequences. -/
def pyStartsWith (s pre : String) : Bool := List.isPrefixOf pre.data s.data

/-- Source: `read_brands` — the list comprehension
`[line.strip() for line in f if line.strip() and not line.strip().startswith("#")]`,
with the text of the file as input. -/
def read_brands (text : String) : List String :=
  ((pyLines text).filter
      (fun line => pyStrip line != "" && !pyStartsWith (pyStrip line) "#")).map
    (fun line => pyStrip line)

/-! ### URL encoding (`urllib.parse.quote`) -/

/-- Upper-case hexadecimal digit for a value below 16. -/
def hexDigitChar (n : Nat) : Char :=
  if n < 10 then Char.ofNat (48 + n) else Char.ofNat (55 + n)

/-- UTF-8 encoding of a code point, as byte values. -/
def utf8Bytes (n : Nat) : List Nat :=
  if n < 128 then [n]
  else if n < 2048 then [192 + n / 64, 128 + n % 64]
  else if n < 65536 then [224 + n / 4096, 128 + n / 64 % 64, 128 + n % 64]
  else [240 + n / 262144, 128 + n / 4096 % 64, 128 + n / 64 % 64, 128 + n % 64]

/-- Characters `urllib.parse.quote` leaves unencoded with the default
`safe="/"`: ASCII alphanumerics, `_`, `.`, `-`, `~` and `/`. -/
def quoteSafeChar (c : Char) : Bool :=
  c.isAlphanum || c = '_' || c = '.' || c = '-' || c = '~' || c = '/'

/-- Percent-encoding of one byte. -/
def percentEncodeByte (b : Nat) : List Char :=
  ['%', hexDigitChar (b / 16), hexDigitChar (b % 16)]

/-- Source: `urllib.parse.quote(filename)` — percent-encode every UTF-8
byte of every character outside the safe set. -/
def pyQuote (s : String) : String :=
  String.mk ((s.data.map (fun c =>
    if quoteSafeChar c then [c]
    else ((utf8Bytes c.toNat).map percentEncodeByte).flatten)).flatten)

/-- Source: `COMMONS_THUMB.format(filename=quoted, width=1024)` where
`COMMONS_THUMB` is the thumbnail template with the `f` and `w` query
parameters. -/
def thumbUrl (filename : String) : String :=
  "https://commons.wikimedia.org/w/thumb.php?f=" ++ pyQuote filename ++ "&w=1024"

/-- Source: `COMMONS_FILEPATH.format(filename=quoted)`, the
`Special:FilePath` direct URL. -/
def filePathUrl (filename : String) : String :=
  "https://commons.wikimedia.org/wiki/Special:FilePath/" ++ pyQuote filename

/-! ### Wikidata lookups -/

/-- The `try` body of `wikidata_get_logo_filename`:
`claims["P154"][0]["mainsnak"]["datavalue"]["value"]`.  An empty claim
list (IndexError) or a missing nested field (KeyError) is caught by the
source and becomes `None`. -/
def extract_filename (cs : List Claim) : Option String :=
  match cs with
  | [] => none
  | c :: _ =>
    match c.mainsnak with
    | none => none
    | some sn =>
      match sn.datavalue with
      | none => none
      | some dv => dv.value

/-- Source: `wikidata_get_logo_filename` — request the P154 claims of
`qid`; `None` when the property is absent or the response is structurally
anomalous, otherwise the filename of the first claim. -/
def wikidata_get_logo_filename (qid : String) : M (Option String) :=
  mbind (claimsReq qid) (fun resp =>
    match resp with
    | none => mpure none
    | some cs => mpure (extract_filename cs))

/-- The list comprehension of `wikidata_search_candidates`:
`[entry.get("id") for entry in ... if entry.get("id")]` — keep ids that
are present and non-empty (Python truthiness). -/
def filterIds (raw : List (Option String)) : List String :=
  raw.filterMap (fun o =>
    match o with
    | some s => if s = "" then none else some s
    | none => none)

/-- Source: `wikidata_search_candidates` — search entities by label in
one language with the given result limit. -/
def wikidata_search_candidates (name lang : String) (limit : Nat) : M (List String) :=
  mbind (searchReq name lang limit) (fun raw => mpure (filterIds raw))

/-- Python truthiness of an `Optional[str]`: `None` and `""` are falsy. -/
def truthyStr (o : Option String) : Bool :=
  match o with
  | some s => s != ""
  | none => false

/-- Python truthiness of an `Optional[bytes]`: `None` and `b""` are
falsy. -/
def truthyBytes (o : Option Bytes) : Bool :=
  match o with
  | some (_ :: _) => true
  | _ => false

/-- The inner loop of `wikidata_search_entity`:
`for qid in candidates: if wikidata_get_logo_filename(qid): return qid`. -/
def firstWithLogo (cands : List String) : M (Option String) :=
  match cands with
  | [] => mpure none
  | qid :: rest =>
    mbind (wikidata_get_logo_filename qid) (fun f =>
      if truthyStr f then mpure (some qid) else firstWithLogo rest)

/-- The outer loop of `wikidata_search_entity` over the priority language
list: search with limit 15, prefer a candidate that already has a logo,
fall back to the first candidate, otherwise try the next language. -/
def searchEntityLangs (name : String) (langs : List String) : M (Option String) :=
  match langs with
  | [] => mpure none
  | lang :: rest =>
    mbind (wikidata_search_candidates name lang 15) (fun candidates =>
      mbind (firstWithLogo candidates) (fun found =>
        match found with
        | some qid => mpure (some qid)
        | none =>
          match candidates with
          | c :: _ => mpure (some c)
          | [] => searchEntityLangs name rest))

/-- Source: `wikidata_search_entity` — Turkish first, then English. -/
def wikidata_search_entity (name : String) : M (Option String) :=
  searchEntityLangs name ["tr", "en"]

/-- Source: `download_commons_raster` — try the 1024px thumbnail endpoint,
on any exception fall back to the direct file path endpoint, on a second
exception return `None`. -/
def download_commons_raster (filename : String) : M (Option Bytes) :=
  mbind (attempt (httpGet (thumbUrl filename))) (fun r1 =>
    match r1 with
    | some content => mpure (some content)
    | none =>
      mbind (attempt (httpGet (filePathUrl filename))) (fun r2 =>
        match r2 with
        | some content => mpure (some content)
        | none => mpure none))

/-! ### Image normalization (`to_png_128`) -/

/-- Round-half-to-even of the rational `num / den` (Python `round` on the
exact value; `ImageOps.contain` computes the quotient in floating point,
which coincides for all realistic image dimensions). -/
def pyRound (num den : Nat) : Nat :=
  let q := num / den
  let r := num % den
  if 2 * r < den then q
  else if den < 2 * r then q + 1
  else if q % 2 = 0 then q else q + 1

/-- The size computation of `ImageOps.contain(img, (bw, bh))`: compare the
image ratio `w / h` with the box ratio `bw / bh` (exactly, by
cross-multiplication) and shrink or stretch the discriminating side,
rounding the other. -/
def containSize (w h bw bh : Nat) : Nat × Nat :=
  if w * bh = h * bw then (bw, bh)
  else if h * bw < w * bh then (bw, pyRound (h * bw) w)
  else (pyRound (w * bh) h, bh)

/-- The fully transparent pixel. -/
def transparent : RGBA := ⟨0, 0, 0, 0⟩

/-- Alpha blend of one channel: destination `d`, source `s`, mask value
`a` (0 keeps the destination, 255 copies the source). -/
def blendChan (d s a : Nat) : Nat := (d * (255 - a) + s * a) / 255

/-- Blend of one pixel under `Image.paste(..., mask=img)`: all four
channels are interpolated using the source pixel's alpha as mask. -/
def blendPx (d s : RGBA) : RGBA :=
  ⟨blendChan d.r s.r s.a, blendChan d.g s.g s.a, blendChan d.b s.b s.a,
    blendChan d.a s.a s.a⟩

/-- `dst.paste(src, (ox, oy), src)`: pixels outside the paste box are
untouched, pixels inside are blended with the source's own alpha as
mask. -/
def paste (dst src : Img) (ox oy : Nat) : Img :=
  ⟨dst.width, dst.height, fun x y =>
    if ox ≤ x ∧ x < ox + src.width ∧ oy ≤ y ∧ y < oy + src.height then
      blendPx (dst.pixel x y) (src.pixel (x - ox) (y - oy))
    else dst.pixel x y⟩

/-- Source: `to_png_128` — decode (`None` on failure), convert to RGBA,
`ImageOps.contain` into the 112x112 box (canvas 128 minus the 8-pixel
padding on each side), create a fully transparent 128x128 canvas, paste
the resized image centered with its own alpha as mask.  `decode` models
`Image.open(...).convert("RGBA")` and `resample` the LANCZOS kernel of
`Image.resize`; `resize` always returns an image of exactly the requested
size. -/
def to_png_128 (decode : Bytes → Option Img)
    (resample : Img → Nat × Nat → Nat → Nat → RGBA) (img_bytes : Bytes) : Option Img :=
  match decode img_bytes with
  | none => none
  | some img =>
    let maxW := 128 - 2 * 8
    let maxH := 128 - 2 * 8
    let sz := containSize img.width img.height maxW maxH
    let resized : Img := ⟨sz.1, sz.2, fun x y => resample img sz x y⟩
    let canvas : Img := ⟨128, 128, fun _ _ => ⟨0, 0, 0, 0⟩⟩
    some (paste canvas resized ((128 - resized.width) / 2) ((128 - resized.height) / 2))

/-- The call `to_png_128(img_bytes)` inside `process_brand`, recording
that the normalizer ran on these bytes. -/
def runNormalizer (b : Bytes) : M (Option Img) :=
  fun env => (Except.ok (to_png_128 env.decode env.resample b), [Req.decodeImage b])

/-! ### Per-brand pipeline (`process_brand`) -/

/-- Tail of `process_brand` after the download succeeded with non-empty
bytes: normalize, fail with "Conversion failed" when the bytes do not
decode, otherwise save the PNG under the sanitized brand name. -/
def afterBytes (brand : String) (bs : Bytes) : M (String × Bool × String) :=
  mbind (runNormalizer bs) (fun img =>
    match img with
    | none => mpure (brand, false, "Conversion failed")
    | some _ =>
      mbind (saveImage (sanitize_filename brand ++ ".png")) (fun _ =>
        mpure (brand, true, "OK")))

/-- Tail of `process_brand` after a non-empty logo filename was fetched:
download (both endpoints), fail with "Download failed" when the result is
falsy (`None` or `b""`). -/
def afterFilename (brand fn : String) : M (String × Bool × String) :=
  mbind (download_commons_raster fn) (fun imgBytes =>
    match imgBytes with
    | none => mpure (brand, false, "Download failed")
    | some bs =>
      if bs = [] then mpure (brand, false, "Download failed")
      else afterBytes brand bs)

/-- Tail of `process_brand` after a truthy entity id was resolved: fetch
the logo filename, fail with the per-entity "No logo" message when it is
falsy. -/
def afterQid (brand q : String) : M (String × Bool × String) :=
  mbind (wikidata_get_logo_filename q) (fun filename =>
    match filename with
    | none => mpure (brand, false, "No logo (P154) for " ++ q)
    | some fn =>
      if fn = "" then mpure (brand, false, "No logo (P154) for " ++ q)
      else afterFilename brand fn)

/-- The `try` body of `process_brand`: resolve, then the staged tail.
`if not qid` covers both `None` and the empty string. -/
def process_brand_inner (brand : String) : M (String × Bool × String) :=
  mbind (wikidata_search_entity brand) (fun qid =>
    match qid with
    | none => mpure (brand, false, "No Wikidata item found")
    | some q =>
      if q = "" then mpure (brand, false, "No Wikidata item found")
      else afterQid brand q)

/-- Source: `process_brand` — the whole per-brand pipeline inside
`try ... except Exception as e: return brand, False, f"Error: {e}"`.
The result is total: an exception of any stage becomes an error record. -/
def process_brand (brand : String) (env : Env) : (String × Bool × String) × List Req :=
  match process_brand_inner brand env with
  | (Except.ok r, t) => (r, t)
  | (Except.error e, t) => ((brand, false, "Error: " ++ e), t)

/-! ### Driver (`main`) -/

/-- One printed status line: `[SUCCESS|FAIL] <brand>: <message>`. -/
def statusLine (r : String × Bool × String) : String :=
  "[" ++ (if r.2.1 then "SUCCESS" else "FAIL") ++ "] " ++ r.1 ++ ": " ++ r.2.2

/-- The `for brand in brands` loop of `main`, threading the success and
failure counters and collecting the printed lines in order. -/
def mainLoop (env : Env) : List String → Nat → Nat → List String × Nat × Nat
  | [], ok, fl => ([], ok, fl)
  | b :: rest, ok, fl =>
    let r := (process_brand b env).1
    let res := if r.2.1 then mainLoop env rest (ok + 1) fl else mainLoop env rest ok (fl + 1)
    (statusLine r :: res.1, res.2)

/-- Source: `main` — read the brands, process each, print one status line
per brand then the summary line, and return exit code 0 iff at least one
brand succeeded.  The returned pair is (printed lines, exit code).
(Named `fetch_logos_main` because Lean reserves `main`.) -/
def fetch_logos_main (env : Env) : List String × Nat :=
  let brands := read_brands env.brandsFile
  let res := mainLoop env brands 0 0
  (res.1 ++ ["Done. Success: " ++ toString res.2.1 ++ ", Fail: " ++ toString res.2.2],
   if 0 < res.2.1 then 0 else 1)

/-! ### Specification-side definitions (for refinement claims) -/

/-- Extraction of a logo filename from an oracle claims response. -/
def logoOfResp (resp : ClaimsResp) : Option String :=
  match resp with
  | none => none
  | some cs => extract_filename cs

/-- The logo filename each entity resolves to, given the claims oracle. -/
def logoOf (lf : String → ClaimsResp) (q : String) : Option String :=
  logoOfResp (lf q)

/-- Modelled from the spec (section 4.2) for the refinement claim C1: scan
one language's candidate list in order and return the first candidate
whose logo fetch yields a filename; if none has a logo but the list is
non-empty, return the first candidate. -/
def resolveSpecLang (cs : List String) (logo : String → Option String) : Option String :=
  match cs.find? (fun q => truthyStr (logo q)) with
  | some q => some q
  | none => cs.head?

/-- Modelled from the spec (section 4.2) for the refinement claim C1: try
the primary language, then the fallback; a language that yields zero
candidates passes to the next; both empty means no entity. -/
def resolveSpec (csTr csEn : List String) (logo : String → Option String) : Option String :=
  match resolveSpecLang csTr logo with
  | some q => some q
  | none => resolveSpecLang csEn logo

/-- Modelled from the spec (section 4.1) for the refinement claim C7: the
trimmed forms of the input lines that are non-empty and not
comment-prefixed, in order. -/
def specReadBrands (text : String) : List String :=
  ((pyLines text).map (fun line => pyStrip line)).filter
    (fun s => s != "" && !pyStartsWith s "#")

/-! ### Request classifiers -/

/-- Is this a `wbsearchentities` request? -/
def isSearchReq : Req → Bool
  | Req.search _ _ _ => true
  | _ => false

/-- Is this a `wbgetclaims` request? -/
def isClaimsReq : Req → Bool
  | Req.getClaims _ => true
  | _ => false

/-- Is this an image download request? -/
def isUrlReq : Req → Bool
  | Req.getUrl _ => true
  | _ => false

/-- Did the normalizer run? -/
def isDecodeReq : Req → Bool
  | Req.decodeImage _ => true
  | _ => false

/-- Is this a file write? -/
def isWriteReq : Req → Bool
  | Req.write _ => true
  | _ => false

/-! ### Concrete oracle environments used to instantiate the theorems -/

/-- A concrete 10x5 source image (fits strictly inside the 112x112 box). -/
def img10x5 : Img := ⟨10, 5, fun _ _ => ⟨9, 9, 9, 255⟩⟩

/-- A decoder oracle that decodes any byte string to `img10x5`. -/
def decode0 : Bytes → Option Img := fun _ => some img10x5

/-- A resampling oracle producing opaque white pixels. -/
def resample0 : Img → Nat × Nat → Nat → Nat → RGBA := fun _ _ _ _ => ⟨255, 255, 255, 255⟩

/-- The composite the normalizer produces for `decode0` / `resample0`. -/
def outImg0 : Img := (to_png_128 decode0 resample0 [0]).getD ⟨0, 0, fun _ _ => transparent⟩

/-- An environment in which every stage succeeds: one candidate `Q1`
carrying logo `Logo.png`, downloads return one byte, decoding yields
`img10x5`, saving succeeds. -/
def envOk : Env :=
  ⟨fun _ _ _ => Except.ok [some "Q1"],
   fun _ => Except.ok (some [⟨some ⟨some ⟨some "Logo.png"⟩⟩⟩]),
   fun _ => Except.ok [7],
   decode0, resample0,
   fun _ => Except.ok (),
   "BrandX\n"⟩

/-- An environment whose entity searches yield zero candidates in every
language (and whose other oracles fail loudly if ever consulted). -/
def envNoHit : Env :=
  ⟨fun _ _ _ => Except.ok [],
   fun _ => Except.error "offline",
   fun _ => Except.error "offline",
   fun _ => none, resample0,
   fun _ => Except.ok (),
   ""⟩

/-- An environment whose very first network call raises. -/
def envBoom : Env :=
  ⟨fun _ _ _ => Except.error "boom",
   fun _ => Except.error "boom",
   fun _ => Except.error "boom",
   fun _ => none, resample0,
   fun _ => Except.ok (),
   "X\n"⟩

/-- Claims oracle for the resolution witness: only `Q2` has a logo. -/
def lfC1 : String → ClaimsResp :=
  fun q => if q = "Q2" then some [⟨some ⟨some ⟨some "Logo.png"⟩⟩⟩] else none

/-- Environment for the resolution witness: Turkish search returns
`Q1, Q2`; English search returns nothing; only `Q2` has a logo. -/
def envTwoCands : Env :=
  ⟨fun _ lang _ => if lang = "tr" then Except.ok [some "Q1", some "Q2"] else Except.ok [],
   fun q => Except.ok (lfC1 q),
   fun _ => Except.error "offline",
   fun _ => none, resample0,
   fun _ => Except.ok (),
   ""⟩

/-! ### Generic evaluation lemmas -/

theorem mbind_ok {α β : Type} (m : M α) (f : α → M β) (env : Env) (a : α) (t : List Req)
    (h : m env = (Except.ok a, t)) :
    mbind m f env = ((f a env).1, t ++ (f a env).2) := by
  rcases hf : f a env with ⟨r, t2⟩
  simp [mbind, h, hf]

theorem mbind_err {α β : Type} (m : M α) (f : α → M β) (env : Env) (e : String) (t : List Req)
    (h : m env = (Except.error e, t)) :
    mbind m f env = (Except.error e, t) := by
  simp [mbind, h]

/-! ### Evaluation of the Wikidata lookups -/

theorem logo_eval_ok (env : Env) (q : String) (resp : ClaimsResp)
    (h : env.claims q = Except.ok resp) :
    wikidata_get_logo_filename q env = (Except.ok (logoOfResp resp), [Req.getClaims q]) := by
  cases resp <;>
    simp [wikidata_get_logo_filename, mbind, claimsReq, mpure, h, logoOfResp]

theorem logo_eval_err (env : Env) (q : String) (e : String)
    (h : env.claims q = Except.error e) :
    wikidata_get_logo_filename q env = (Except.error e, [Req.getClaims q]) := by
  simp [wikidata_get_logo_filename, mbind, claimsReq, h]

theorem logo_trace (env : Env) (q : String) :
    (wikidata_get_logo_filename q env).2 = [Req.getClaims q] := by
  cases h : env.claims q with
  | error e => rw [logo_eval_err env q e h]
  | ok resp => rw [logo_eval_ok env q resp h]

theorem search_cands_ok (env : Env) (name lang : String) (lim : Nat)
    (raw : List (Option String)) (h : env.search name lang lim = Except.ok raw) :
    wikidata_search_candidates name lang lim env
      = (Except.ok (filterIds raw), [Req.search name lang lim]) := by
  simp [wikidata_search_candidates, mbind, searchReq, mpure, h]

theorem search_cands_err (env : Env) (name lang : String) (lim : Nat) (e : String)
    (h : env.search name lang lim = Except.error e) :
    wikidata_search_candidates name lang lim env
      = (Except.error e, [Req.search name lang lim]) := by
  simp [wikidata_search_candidates, mbind, searchReq, h]

/-! ### Step lemmas for the candidate scan -/

theorem firstWithLogo_cons_found (env : Env) (qid : String) (rest : List String)
    (f : Option String) (t : List Req)
    (hg : wikidata_get_logo_filename qid env = (Except.ok f, t))
    (ht : truthyStr f = true) :
    firstWithLogo (qid :: rest) env = (Except.ok (some qid), t) := by
  rw [show firstWithLogo (qid :: rest)
      = mbind (wikidata_get_logo_filename qid) (fun f =>
          if truthyStr f then mpure (some qid) else firstWithLogo rest) from rfl,
    mbind_ok _ _ _ _ _ hg]
  simp [ht, mpure]

theorem firstWithLogo_cons_next (env : Env) (qid : String) (rest : List String)
    (f : Option String) (t : List Req)
    (hg : wikidata_get_logo_filename qid env = (Except.ok f, t))
    (ht : truthyStr f = false) :
    firstWithLogo (qid :: rest) env
      = ((firstWithLogo rest env).1, t ++ (firstWithLogo rest env).2) := by
  rw [show firstWithLogo (qid :: rest)
      = mbind (wikidata_get_logo_filename qid) (fun f =>
          if truthyStr f then mpure (some qid) else firstWithLogo rest) from rfl,
    mbind_ok _ _ _ _ _ hg]
  simp [ht]

theorem firstWithLogo_cons_err (env : Env) (qid : String) (rest : List String)
    (e : String) (t : List Req)
    (hg : wikidata_get_logo_filename qid env = (Except.error e, t)) :
    firstWithLogo (qid :: rest) env = (Except.error e, t) := by
  rw [show firstWithLogo (qid :: rest)
      = mbind (wikidata_get_logo_filename qid) (fun f =>
          if truthyStr f then mpure (some qid) else firstWithLogo rest) from rfl,
    mbind_err _ _ _ _ _ hg]

theorem firstWithLogo_result (env : Env) (lf : String → ClaimsResp)
    (hcl : ∀ q, env.claims q = Except.ok (lf q)) :
    ∀ cands, (firstWithLogo cands env).1
      = Except.ok (cands.find? (fun q => truthyStr (logoOf lf q)))
  | [] => by simp [firstWithLogo, mpure]
  | qid :: rest => by
    have hl := logo_eval_ok env qid (lf qid) (hcl qid)
    have ih := firstWithLogo_result env lf hcl rest
    cases ht : truthyStr (logoOf lf qid) with
    | true =>
      rw [firstWithLogo_cons_found env qid rest _ _ hl ht]
      simp [List.find?, ht]
    | false =>
      rw [firstWithLogo_cons_next env qid rest _ _ hl ht]
      simp [List.find?, ht, ih]

theorem firstWithLogo_trace (env : Env) :
    ∀ cands, ∀ r ∈ (firstWithLogo cands env).2, isClaimsReq r = true
  | [] => by simp [firstWithLogo, mpure]
  | qid :: rest => by
    intro r hr
    have htr : (wikidata_get_logo_filename qid env).2 = [Req.getClaims qid] :=
      logo_trace env qid
    rcases hg : wikidata_get_logo_filename qid env with ⟨gr, gt⟩
    rw [hg] at htr
    simp only at htr
    subst htr
    cases gr with
    | error e =>
      rw [firstWithLogo_cons_err env qid rest e _ hg] at hr
      simp at hr
      subst hr
      rfl
    | ok f =>
      cases ht : truthyStr f with
      | true =>
        rw [firstWithLogo_cons_found env qid rest f _ hg ht] at hr
        simp at hr
        subst hr
        rfl
      | false =>
        rw [firstWithLogo_cons_next env qid rest f _ hg ht] at hr
        simp [List.mem_append] at hr
        rcases hr with hr | hr
        · subst hr; rfl
        · exact firstWithLogo_trace env rest r hr

theorem firstWithLogo_mem (env : Env) :
    ∀ cands q t, firstWithLogo cands env = (Except.ok (some q), t) → q ∈ cands
  | [], q, t => by
    intro h
    simp [firstWithLogo, mpure, Prod.ext_iff] at h
  | qid :: rest, q, t => by
    intro h
    rcases hg : wikidata_get_logo_filename qid env with ⟨gr, gt⟩
    cases gr with
    | error e =>
      rw [firstWithLogo_cons_err env qid rest e _ hg] at h
      simp [Prod.ext_iff] at h
    | ok f =>
      cases ht : truthyStr f with
      | true =>
        rw [firstWithLogo_cons_found env qid rest f _ hg ht] at h
        have : q = qid := by
          have h1 := congrArg Prod.fst h
          simp at h1
          exact h1.symm
        simp [this]
      | false =>
        rw [firstWithLogo_cons_next env qid rest f _ hg ht] at h
        rcases hrest : firstWithLogo rest env with ⟨rr, rt⟩
        rw [hrest] at h
        have h1 := congrArg Prod.fst h
        simp at h1
        have := firstWithLogo_mem env rest q rt (by rw [hrest, h1])
        simp [this]

/-! ### Step lemmas for the language loop -/

theorem searchEntityLangs_cons_err (env : Env) (name lang : String) (rest : List String)
    (e : String) (hs : env.search name lang 15 = Except.error e) :
    searchEntityLangs name (lang :: rest) env = (Except.error e, [Req.search name lang 15]) := by
  rw [show searchEntityLangs name (lang :: rest)
      = mbind (wikidata_search_candidates name lang 15) (fun candidates =>
          mbind (firstWithLogo candidates) (fun found =>
            match found with
            | some qid => mpure (some qid)
            | none =>
              match candidates with
              | c :: _ => mpure (some c)
              | [] => searchEntityLangs name rest)) from rfl,
    mbind_err _ _ _ _ _ (search_cands_err env name lang 15 e hs)]

theorem searchEntityLangs_cons_ok (env : Env) (name lang : String) (rest : List String)
    (raw : List (Option String)) (hs : env.search name lang 15 = Except.ok raw) :
    searchEntityLangs name (lang :: rest) env
      = ((mbind (firstWithLogo (filterIds raw)) (fun found =>
            match found with
            | some qid => mpure (some qid)
            | none =>
              match filterIds raw with
              | c :: _ => mpure (some c)
              | [] => searchEntityLangs name rest) env).1,
         Req.search name lang 15
           :: (mbind (firstWithLogo (filterIds raw)) (fun found =>
                 match found with
                 | some qid => mpure (some qid)
                 | none =>
                   match filterIds raw with
                   | c :: _ => mpure (some c)
                   | [] => searchEntityLangs name rest) env).2) := by
  rw [show searchEntityLangs name (lang :: rest)
      = mbind (wikidata_search_candidates name lang 15) (fun candidates =>
          mbind (firstWithLogo candidates) (fun found =>
            match found with
            | some qid => mpure (some qid)
            | none =>
              match candidates with
              | c :: _ => mpure (some c)
              | [] => searchEntityLangs name rest)) from rfl,
    mbind_ok _ _ _ _ _ (search_cands_ok env name lang 15 raw hs)]
  simp

theorem searchEntityLangs_found (env : Env) (name lang : String) (rest : List String)
    (raw : List (Option String)) (q : String) (t : List Req)
    (hs : env.search name lang 15 = Except.ok raw)
    (hf : firstWithLogo (filterIds raw) env = (Except.ok (some q), t)) :
    searchEntityLangs name (lang :: rest) env
      = (Except.ok (some q), Req.search name lang 15 :: t) := by
  rw [searchEntityLangs_cons_ok env name lang rest raw hs, mbind_ok _ _ _ _ _ hf]
  simp [mpure]

theorem searchEntityLangs_nologo (env : Env) (name lang : String) (rest : List String)
    (raw : List (Option String)) (c : String) (cs : List String) (t : List Req)
    (hs : env.search name lang 15 = Except.ok raw)
    (hc : filterIds raw = c :: cs)
    (hf : firstWithLogo (filterIds raw) env = (Except.ok none, t)) :
    searchEntityLangs name (lang :: rest) env
      = (Except.ok (some c), Req.search name lang 15 :: t) := by
  rw [searchEntityLangs_cons_ok env name lang rest raw hs, mbind_ok _ _ _ _ _ hf]
  simp [hc, mpure]

theorem searchEntityLangs_empty (env : Env) (name lang : String) (rest : List String)
    (raw : List (Option String))
    (hs : env.search name lang 15 = Except.ok raw)
    (hc : filterIds raw = []) :
    searchEntityLangs name (lang :: rest) env
      = ((searchEntityLangs name rest env).1,
         Req.search name lang 15 :: (searchEntityLangs name rest env).2) := by
  have hf : firstWithLogo (filterIds raw) env = (Except.ok (none : Option String), []) := by
    rw [hc]; rfl
  rw [searchEntityLangs_cons_ok env name lang rest raw hs, mbind_ok _ _ _ _ _ hf]
  simp [hc]

theorem searchEntityLangs_ferr (env : Env) (name lang : String) (rest : List String)
    (raw : List (Option String)) (e : String) (t : List Req)
    (hs : env.search name lang 15 = Except.ok raw)
    (hf : firstWithLogo (filterIds raw) env = (Except.error e, t)) :
    searchEntityLangs name (lang :: rest) env
      = (Except.error e, Req.search name lang 15 :: t) := by
  rw [searchEntityLangs_cons_ok env name lang rest raw hs, mbind_err _ _ _ _ _ hf]

theorem searchEntityLangs_none (env : Env) (name : String) :
    ∀ langs t, searchEntityLangs name langs env = (Except.ok none, t) →
      t = langs.map (fun l => Req.search name l 15)
  | [], t => by
    intro h
    have h2 := congrArg Prod.snd h
    simpa [searchEntityLangs, mpure] using h2.symm
  | lang :: rest, t => by
    intro h
    cases hs : env.search name lang 15 with
    | error e =>
      rw [searchEntityLangs_cons_err env name lang rest e hs] at h
      exact absurd (congrArg Prod.fst h) (by simp)
    | ok raw =>
      rcases hf : firstWithLogo (filterIds raw) env with ⟨fr, ft⟩
      cases fr with
      | error e =>
        rw [searchEntityLangs_ferr env name lang rest raw e ft hs hf] at h
        exact absurd (congrArg Prod.fst h) (by simp)
      | ok found =>
        cases found with
        | some q =>
          rw [searchEntityLangs_found env name lang rest raw q ft hs hf] at h
          exact absurd (congrArg Prod.fst h) (by simp)
        | none =>
          cases hc : filterIds raw with
          | cons c cs =>
            rw [searchEntityLangs_nologo env name lang rest raw c cs ft hs hc hf] at h
            exact absurd (congrArg Prod.fst h) (by simp)
          | nil =>
            rw [searchEntityLangs_empty env name lang rest raw hs hc] at h
            rcases hrest : searchEntityLangs name rest env with ⟨rr, rt⟩
            rw [hrest] at h
            have h1 := congrArg Prod.fst h
            have h2 := congrArg Prod.snd h
            simp at h1 h2
            have ih := searchEntityLangs_none env name rest rt (by rw [hrest, h1])
            rw [← h2, ih]
            simp

theorem filterIds_mem (raw : List (Option String)) :
    ∀ s ∈ filterIds raw, s ≠ "" := by
  intro s hs
  simp [filterIds, List.mem_filterMap] at hs
  rcases hs with ⟨o, _, hmatch⟩
  cases o with
  | none => simp at hmatch
  | some v =>
    by_cases hv : v = "" <;> simp [hv] at hmatch
    rw [← hmatch]
    exact hv

theorem searchEntityLangs_some_ne (env : Env) (name : String) :
    ∀ langs q t, searchEntityLangs name langs env = (Except.ok (some q), t) → q ≠ ""
  | [], q, t => by
    intro h
    have h1 := congrArg Prod.fst h
    simp [searchEntityLangs, mpure] at h1
  | lang :: rest, q, t => by
    intro h
    cases hs : env.search name lang 15 with
    | error e =>
      rw [searchEntityLangs_cons_err env name lang rest e hs] at h
      exact absurd (congrArg Prod.fst h) (by simp)
    | ok raw =>
      rcases hf : firstWithLogo (filterIds raw) env with ⟨fr, ft⟩
      cases fr with
      | error e =>
        rw [searchEntityLangs_ferr env name lang rest raw e ft hs hf] at h
        exact absurd (congrArg Prod.fst h) (by simp)
      | ok found =>
        cases found with
        | some q2 =>
          rw [searchEntityLangs_found env name lang rest raw q2 ft hs hf] at h
          have h1 := congrArg Prod.fst h
          simp at h1
          rw [← h1]
          exact filterIds_mem raw q2 (firstWithLogo_mem env (filterIds raw) q2 ft hf)
        | none =>
          cases hc : filterIds raw with
          | cons c cs =>
            rw [searchEntityLangs_nologo env name lang rest raw c cs ft hs hc hf] at h
            have h1 := congrArg Prod.fst h
            simp at h1
            rw [← h1]
            exact filterIds_mem raw c (by rw [hc]; simp)
          | nil =>
            rw [searchEntityLangs_empty env name lang rest raw hs hc] at h
            rcases hrest : searchEntityLangs name rest env with ⟨rr, rt⟩
            rw [hrest] at h
            have h1 := congrArg Prod.fst h
            simp at h1
            exact searchEntityLangs_some_ne env name rest q rt (by rw [hrest, h1])

theorem searchEntityLangs_trace (env : Env) (name : String) :
    ∀ langs, ∀ r ∈ (searchEntityLangs name langs env).2,
      (∃ l, l ∈ langs ∧ r = Req.search name l 15) ∨ isClaimsReq r = true
  | [] => by simp [searchEntityLangs, mpure]
  | lang :: rest => by
    intro r hr
    cases hs : env.search name lang 15 with
    | error e =>
      rw [searchEntityLangs_cons_err env name lang rest e hs] at hr
      simp at hr
      subst hr
      exact Or.inl ⟨lang, by simp⟩
    | ok raw =>
      rcases hf : firstWithLogo (filterIds raw) env with ⟨fr, ft⟩
      have hft : ∀ x ∈ ft, isClaimsReq x = true := fun x hx =>
        firstWithLogo_trace env (filterIds raw) x (by rw [hf]; exact hx)
      cases fr with
      | error e =>
        rw [searchEntityLangs_ferr env name lang rest raw e ft hs hf] at hr
        simp at hr
        rcases hr with hr | hr
        · subst hr; exact Or.inl ⟨lang, by simp⟩
        · exact Or.inr (hft r hr)
      | ok found =>
        cases found with
        | some q =>
          rw [searchEntityLangs_found env name lang rest raw q ft hs hf] at hr
          simp at hr
          rcases hr with hr | hr
          · subst hr; exact Or.inl ⟨lang, by simp⟩
          · exact Or.inr (hft r hr)
        | none =>
          cases hc : filterIds raw with
          | cons c cs =>
            rw [searchEntityLangs_nologo env name lang rest raw c cs ft hs hc hf] at hr
            simp at hr
            rcases hr with hr | hr
            · subst hr; exact Or.inl ⟨lang, by simp⟩
            · exact Or.inr (hft r hr)
          | nil =>
            rw [searchEntityLangs_empty env name lang rest raw hs hc] at hr
            simp at hr
            rcases hr with hr | hr
            · subst hr; exact Or.inl ⟨lang, by simp⟩
            · rcases searchEntityLangs_trace env name rest r hr with ⟨l, hl, hrq⟩ | hcl
              · exact Or.inl ⟨l, List.mem_cons_of_mem _ hl, hrq⟩
              · exact Or.inr hcl

theorem searchEntityLangs_lang_eval (env : Env) (name lang : String) (rest : List String)
    (raw : List (Option String)) (lf : String → ClaimsResp)
    (hs : env.search name lang 15 = Except.ok raw)
    (hcl : ∀ q, env.claims q = Except.ok (lf q)) :
    (searchEntityLangs name (lang :: rest) env).1
      = match resolveSpecLang (filterIds raw) (logoOf lf) with
        | some q => Except.ok (some q)
        | none => (searchEntityLangs name rest env).1 := by
  rcases hf : firstWithLogo (filterIds raw) env with ⟨fr, ft⟩
  have hres := firstWithLogo_result env lf hcl (filterIds raw)
  rw [hf] at hres
  simp at hres
  subst hres
  cases hfind : (filterIds raw).find? (fun q => truthyStr (logoOf lf q)) with
  | some q =>
    rw [hfind] at hf
    rw [searchEntityLangs_found env name lang rest raw q ft hs hf]
    simp [resolveSpecLang, hfind]
  | none =>
    rw [hfind] at hf
    cases hc : filterIds raw with
    | cons c cs =>
      rw [searchEntityLangs_nologo env name lang rest raw c cs ft hs hc hf]
      rw [hc] at hfind
      simp [resolveSpecLang, hfind, hc]
    | nil =>
      rw [searchEntityLangs_empty env name lang rest raw hs hc]
      simp [resolveSpecLang, hc, List.find?]

theorem searchEntity_eval (env : Env) (name : String) (lf : String → ClaimsResp)
    (rtr ren : List (Option String))
    (htr : env.search name "tr" 15 = Except.ok rtr)
    (hen : env.search name "en" 15 = Except.ok ren)
    (hcl : ∀ q, env.claims q = Except.ok (lf q)) :
    (wikidata_search_entity name env).1
      = Except.ok (resolveSpec (filterIds rtr) (filterIds ren) (logoOf lf)) := by
  rw [wikidata_search_entity,
    searchEntityLangs_lang_eval env name "tr" ["en"] rtr lf htr hcl]
  cases h1 : resolveSpecLang (filterIds rtr) (logoOf lf) with
  | some q => simp [resolveSpec, h1]
  | none =>
    simp only
    rw [searchEntityLangs_lang_eval env name "en" [] ren lf hen hcl]
    cases h2 : resolveSpecLang (filterIds ren) (logoOf lf) with
    | some q => simp [resolveSpec, h1, h2]
    | none => simp [resolveSpec, h1, h2, searchEntityLangs, mpure]

/-! ### Evaluation of the downloader -/

theorem download_eval (env : Env) (filename : String) :
    download_commons_raster filename env =
      match env.http (thumbUrl filename) with
      | Except.ok content => (Except.ok (some content), [Req.getUrl (thumbUrl filename)])
      | Except.error _ =>
        match env.http (filePathUrl filename) with
        | Except.ok content =>
            (Except.ok (some content),
             [Req.getUrl (thumbUrl filename), Req.getUrl (filePathUrl filename)])
        | Except.error _ =>
            (Except.ok none,
             [Req.getUrl (thumbUrl filename), Req.getUrl (filePathUrl filename)]) := by
  cases h1 : env.http (thumbUrl filename) with
  | ok content => simp [download_commons_raster, mbind, attempt, httpGet, mpure, h1]
  | error e =>
    cases h2 : env.http (filePathUrl filename) with
    | ok content => simp [download_commons_raster, mbind, attempt, httpGet, mpure, h1, h2]
    | error e2 => simp [download_commons_raster, mbind, attempt, httpGet, mpure, h1, h2]

theorem download_ok_shape (env : Env) (fn : String) :
    ∃ ob t, download_commons_raster fn env = (Except.ok ob, t)
      ∧ ∀ r ∈ t, isUrlReq r = true := by
  rw [download_eval]
  cases h1 : env.http (thumbUrl fn) with
  | ok c =>
    exact ⟨some c, _, rfl, by intro r hr; simp at hr; subst hr; rfl⟩
  | error e =>
    cases h2 : env.http (filePathUrl fn) with
    | ok c =>
      exact ⟨some c, _, rfl, by intro r hr; simp at hr; rcases hr with hr | hr <;> subst hr <;> rfl⟩
    | error e2 =>
      exact ⟨none, _, rfl, by intro r hr; simp at hr; rcases hr with hr | hr <;> subst hr <;> rfl⟩

/-! ### Arithmetic of the contain operation -/

theorem pyRound_le (n d k : Nat) (hd : 0 < d) (h : n ≤ k * d) : pyRound n d ≤ k := by
  have hq : n / d ≤ k := by
    have h1 : n / d ≤ k * d / d := Nat.div_le_div_right h
    rwa [Nat.mul_div_cancel k hd] at h1
  have hlt : n % d ≠ 0 → n / d + 1 ≤ k := by
    intro hr
    have hne : n ≠ k * d := by
      intro he
      apply hr
      rw [he, Nat.mul_mod_left]
    have hlt2 : n < k * d := lt_of_le_of_ne h hne
    exact Nat.succ_le_of_lt ((Nat.div_lt_iff_lt_mul hd).2 hlt2)
  simp only [pyRound]
  split_ifs with h1 h2 h3
  · exact hq
  · exact hlt (by omega)
  · exact hq
  · exact hlt (by omega)

theorem pyRound_self (w : Nat) (hw : 0 < w) : pyRound (w * 112) w = 112 := by
  have h1 : w * 112 / w = 112 := by
    rw [Nat.mul_comm]
    exact Nat.mul_div_cancel 112 hw
  have h2 : w * 112 % w = 0 := Nat.mul_mod_right w 112
  simp only [pyRound, h1, h2]
  simp [hw]

theorem containSize_bounds (w h : Nat) (hw : 0 < w) (hh : 0 < h) :
    (containSize w h 112 112).1 ≤ 112 ∧ (containSize w h 112 112).2 ≤ 112
      ∧ ((containSize w h 112 112).1 = 112 ∨ (containSize w h 112 112).2 = 112) := by
  simp only [containSize]
  split_ifs with h1 h2
  · simp
  · have hb : pyRound (h * 112) w ≤ 112 := pyRound_le (h * 112) w 112 hw (by omega)
    simp [hb]
  · have hb : pyRound (w * 112) h ≤ 112 := pyRound_le (w * 112) h 112 hh (by omega)
    simp [hb]

theorem containSize_wide (w h : Nat) (hw : 0 < w) (hle : h ≤ w) :
    containSize w h 112 112 = (112, pyRound (h * 112) w) := by
  simp only [containSize]
  split_ifs with h1 h2
  · have hwh : h = w := by omega
    rw [hwh, pyRound_self w hw]
  · rfl
  · exfalso; omega

theorem containSize_tall (w h : Nat) (hh : 0 < h) (hle : w ≤ h) :
    containSize w h 112 112 = (pyRound (w * 112) h, 112) := by
  simp only [containSize]
  split_ifs with h1 h2
  · have hwh : w = h := by omega
    rw [hwh, pyRound_self h hh]
  · exfalso; omega
  · rfl

/-! ### Wrappers at the `wikidata_search_entity` level -/

theorem searchEntity_none_trace (env : Env) (brand : String) (rt : List Req)
    (hr : wikidata_search_entity brand env = (Except.ok none, rt)) :
    rt = [Req.search brand "tr" 15, Req.search brand "en" 15] := by
  have hr2 : searchEntityLangs brand ["tr", "en"] env = (Except.ok none, rt) := hr
  have h2 := searchEntityLangs_none env brand ["tr", "en"] rt hr2
  simpa using h2

theorem searchEntity_some_ne (env : Env) (brand q : String) (rt : List Req)
    (hr : wikidata_search_entity brand env = (Except.ok (some q), rt)) : q ≠ "" := by
  have hr2 : searchEntityLangs brand ["tr", "en"] env = (Except.ok (some q), rt) := hr
  exact searchEntityLangs_some_ne env brand ["tr", "en"] q rt hr2

theorem searchEntity_trace (env : Env) (brand : String) :
    ∀ r ∈ (wikidata_search_entity brand env).2,
      (r = Req.search brand "tr" 15 ∨ r = Req.search brand "en" 15) ∨ isClaimsReq r = true := by
  intro r hr
  have hr2 : r ∈ (searchEntityLangs brand ["tr", "en"] env).2 := hr
  rcases searchEntityLangs_trace env brand ["tr", "en"] r hr2 with ⟨l, hl, hreq⟩ | hcl
  · simp at hl
    rcases hl with hl | hl <;> subst hl
    · exact Or.inl (Or.inl hreq)
    · exact Or.inl (Or.inr hreq)
  · exact Or.inr hcl

/-! ### Step lemmas for the per-brand pipeline -/

theorem afterBytes_conv_fail (env : Env) (brand : String) (bs : Bytes)
    (h : to_png_128 env.decode env.resample bs = none) :
    afterBytes brand bs env
      = (Except.ok (brand, false, "Conversion failed"), [Req.decodeImage bs]) := by
  rw [afterBytes, mbind_ok _ _ _ _ _ (show runNormalizer bs env
    = (Except.ok (to_png_128 env.decode env.resample bs), [Req.decodeImage bs]) from rfl)]
  simp [h, mpure]

theorem afterBytes_save_ok (env : Env) (brand : String) (bs : Bytes) (img : Img)
    (h : to_png_128 env.decode env.resample bs = some img)
    (hsv : env.save (sanitize_filename brand ++ ".png") = Except.ok ()) :
    afterBytes brand bs env
      = (Except.ok (brand, true, "OK"),
         [Req.decodeImage bs, Req.write (sanitize_filename brand ++ ".png")]) := by
  rw [afterBytes, mbind_ok _ _ _ _ _ (show runNormalizer bs env
    = (Except.ok (to_png_128 env.decode env.resample bs), [Req.decodeImage bs]) from rfl)]
  simp only [h]
  rw [mbind_ok _ _ _ _ _ (show saveImage (sanitize_filename brand ++ ".png") env
    = (Except.ok (), [Req.write (sanitize_filename brand ++ ".png")]) from by
      simp [saveImage, hsv])]
  simp [mpure]

theorem afterBytes_save_err (env : Env) (brand : String) (bs : Bytes) (img : Img) (e : String)
    (h : to_png_128 env.decode env.resample bs = some img)
    (hsv : env.save (sanitize_filename brand ++ ".png") = Except.error e) :
    afterBytes brand bs env
      = (Except.error e,
         [Req.decodeImage bs, Req.write (sanitize_filename brand ++ ".png")]) := by
  rw [afterBytes, mbind_ok _ _ _ _ _ (show runNormalizer bs env
    = (Except.ok (to_png_128 env.decode env.resample bs), [Req.decodeImage bs]) from rfl)]
  simp only [h]
  rw [mbind_err _ _ _ _ _ (show saveImage (sanitize_filename brand ++ ".png") env
    = (Except.error e, [Req.write (sanitize_filename brand ++ ".png")]) from by
      simp [saveImage, hsv])]
  simp

theorem afterFilename_dl_fail (env : Env) (brand fn : String) (ob : Option Bytes) (t : List Req)
    (hd : download_commons_raster fn env = (Except.ok ob, t))
    (hob : truthyBytes ob = false) :
    afterFilename brand fn env = (Except.ok (brand, false, "Download failed"), t) := by
  rw [afterFilename, mbind_ok _ _ _ _ _ hd]
  cases ob with
  | none => simp [mpure]
  | some bs =>
    cases bs with
    | nil => simp [mpure]
    | cons b bs2 => simp [truthyBytes] at hob

theorem afterFilename_dl_ok (env : Env) (brand fn : String) (bs : Bytes) (t : List Req)
    (hd : download_commons_raster fn env = (Except.ok (some bs), t))
    (hbs : bs ≠ []) :
    afterFilename brand fn env
      = ((afterBytes brand bs env).1, t ++ (afterBytes brand bs env).2) := by
  rw [afterFilename, mbind_ok _ _ _ _ _ hd]
  simp [hbs]

theorem afterQid_nologo (env : Env) (brand q : String) (f : Option String) (t : List Req)
    (hg : wikidata_get_logo_filename q env = (Except.ok f, t))
    (hf : truthyStr f = false) :
    afterQid brand q env = (Except.ok (brand, false, "No logo (P154) for " ++ q), t) := by
  rw [afterQid, mbind_ok _ _ _ _ _ hg]
  cases f with
  | none => simp [mpure]
  | some s =>
    have hs : s = "" := by simpa [truthyStr] using hf
    subst hs
    simp [mpure]

theorem afterQid_logo (env : Env) (brand q fn : String) (t : List Req)
    (hg : wikidata_get_logo_filename q env = (Except.ok (some fn), t))
    (hfn : fn ≠ "") :
    afterQid brand q env
      = ((afterFilename brand fn env).1, t ++ (afterFilename brand fn env).2) := by
  rw [afterQid, mbind_ok _ _ _ _ _ hg]
  simp [hfn]

theorem afterQid_err (env : Env) (brand q : String) (e : String) (t : List Req)
    (hg : wikidata_get_logo_filename q env = (Except.error e, t)) :
    afterQid brand q env = (Except.error e, t) := by
  rw [afterQid]
  exact mbind_err _ _ _ _ _ hg

theorem inner_noitem (env : Env) (brand : String) (t : List Req)
    (hr : wikidata_search_entity brand env = (Except.ok none, t)) :
    process_brand_inner brand env
      = (Except.ok (brand, false, "No Wikidata item found"), t) := by
  rw [process_brand_inner, mbind_ok _ _ _ _ _ hr]
  simp [mpure]

theorem inner_qid (env : Env) (brand q : String) (t : List Req)
    (hr : wikidata_search_entity brand env = (Except.ok (some q), t))
    (hq : q ≠ "") :
    process_brand_inner brand env
      = ((afterQid brand q env).1, t ++ (afterQid brand q env).2) := by
  rw [process_brand_inner, mbind_ok _ _ _ _ _ hr]
  simp [hq]

theorem inner_err (env : Env) (brand : String) (e : String) (t : List Req)
    (hr : wikidata_search_entity brand env = (Except.error e, t)) :
    process_brand_inner brand env = (Except.error e, t) := by
  rw [process_brand_inner]
  exact mbind_err _ _ _ _ _ hr

theorem process_brand_of_inner_ok (env : Env) (brand : String)
    (r : String × Bool × String) (t : List Req)
    (h : process_brand_inner brand env = (Except.ok r, t)) :
    process_brand brand env = (r, t) := by
  simp [process_brand, h]

theorem process_brand_of_inner_err (env : Env) (brand : String) (e : String) (t : List Req)
    (h : process_brand_inner brand env = (Except.error e, t)) :
    process_brand brand env = ((brand, false, "Error: " ++ e), t) := by
  simp [process_brand, h]

/-! ### Driver lemmas -/

theorem mainLoop_eval (env : Env) :
    ∀ (bs : List String) (ok fl : Nat),
      mainLoop env bs ok fl =
        (bs.map (fun b => statusLine ((process_brand b env).1)),
         ok + bs.countP (fun b => ((process_brand b env).1).2.1),
         fl + bs.countP (fun b => !((process_brand b env).1).2.1))
  | [], ok, fl => by simp [mainLoop]
  | b :: bs, ok, fl => by
    cases hb : ((process_brand b env).1).2.1 with
    | true =>
      have ih := mainLoop_eval env bs (ok + 1) fl
      simp only [mainLoop, hb, if_true, ih, List.map_cons, List.countP_cons, Prod.ext_iff]
      simp [hb]
      omega
    | false =>
      have ih := mainLoop_eval env bs ok (fl + 1)
      simp only [mainLoop, hb, Bool.false_eq_true, if_false, ih, List.map_cons,
        List.countP_cons, Prod.ext_iff]
      simp [hb]
      omega

theorem countP_partition {α : Type} (p : α → Bool) :
    ∀ l : List α, l.countP p + l.countP (fun a => !(p a)) = l.length
  | [] => rfl
  | a :: l => by
    have ih := countP_partition p l
    cases hp : p a <;> simp [List.countP_cons, hp] <;> omega

theorem filter_map_comm {α β : Type} (f : α → β) (p : β → Bool) :
    ∀ l : List α, (l.filter (fun a => p (f a))).map f = (l.map f).filter p
  | [] => rfl
  | a :: l => by
    cases hp : p (f a) <;> simp [List.filter, hp, filter_map_comm f p l]

/-! ### Trace and shape lemmas for the pipeline tails -/

theorem download_trace (env : Env) (fn : String) :
    ∀ r ∈ (download_commons_raster fn env).2, isUrlReq r = true := by
  intro r hr
  rw [download_eval] at hr
  cases h1 : env.http (thumbUrl fn) with
  | ok c =>
    rw [h1] at hr
    simp at hr
    subst hr
    rfl
  | error e =>
    rw [h1] at hr
    cases h2 : env.http (filePathUrl fn) with
    | ok c =>
      rw [h2] at hr
      simp at hr
      rcases hr with hr | hr <;> subst hr <;> rfl
    | error e2 =>
      rw [h2] at hr
      simp at hr
      rcases hr with hr | hr <;> subst hr <;> rfl

theorem filter_write_of_kinds (l : List Req)
    (hall : ∀ r ∈ l, isWriteReq r = false) : l.filter isWriteReq = [] := by
  induction l with
  | nil => rfl
  | cons a l ih =>
    have ha := hall a (by simp)
    simp [List.filter, ha]
    intro r hr
    simp [hall r (List.mem_cons_of_mem a hr)]

theorem afterBytes_fst (env : Env) (brand : String) (bs : Bytes)
    (trip : String × Bool × String) (t : List Req)
    (h : afterBytes brand bs env = (Except.ok trip, t)) : trip.1 = brand := by
  cases himg : to_png_128 env.decode env.resample bs with
  | none =>
    rw [afterBytes_conv_fail env brand bs himg] at h
    have h1 := congrArg Prod.fst h
    simp at h1
    rw [← h1]
  | some img =>
    cases hsv : env.save (sanitize_filename brand ++ ".png") with
    | error e =>
      rw [afterBytes_save_err env brand bs img e himg hsv] at h
      exact absurd (congrArg Prod.fst h) (by simp)
    | ok u =>
      cases u
      rw [afterBytes_save_ok env brand bs img himg hsv] at h
      have h1 := congrArg Prod.fst h
      simp at h1
      rw [← h1]

theorem afterFilename_fst (env : Env) (brand fn : String)
    (trip : String × Bool × String) (t : List Req)
    (h : afterFilename brand fn env = (Except.ok trip, t)) : trip.1 = brand := by
  obtain ⟨ob, t2, hsh, _⟩ := download_ok_shape env fn
  cases hob : truthyBytes ob with
  | false =>
    rw [afterFilename_dl_fail env brand fn ob t2 hsh hob] at h
    have h1 := congrArg Prod.fst h
    simp at h1
    rw [← h1]
  | true =>
    cases ob with
    | none => simp [truthyBytes] at hob
    | some bs =>
      cases bs with
      | nil => simp [truthyBytes] at hob
      | cons x xs =>
        rw [afterFilename_dl_ok env brand fn (x :: xs) t2 hsh (by simp)] at h
        rcases hab : afterBytes brand (x :: xs) env with ⟨ar, abt⟩
        rw [hab] at h
        cases ar with
        | error e => exact absurd (congrArg Prod.fst h) (by simp)
        | ok trip2 =>
          have h1 := congrArg Prod.fst h
          simp at h1
          rw [← h1]
          exact afterBytes_fst env brand (x :: xs) trip2 abt hab

theorem afterQid_fst (env : Env) (brand q : String)
    (trip : String × Bool × String) (t : List Req)
    (h : afterQid brand q env = (Except.ok trip, t)) : trip.1 = brand := by
  rcases hg : wikidata_get_logo_filename q env with ⟨gr, gt⟩
  cases gr with
  | error e =>
    rw [afterQid, mbind_err _ _ _ _ _ hg] at h
    exact absurd (congrArg Prod.fst h) (by simp)
  | ok f =>
    cases hf : truthyStr f with
    | false =>
      rw [afterQid_nologo env brand q f gt hg hf] at h
      have h1 := congrArg Prod.fst h
      simp at h1
      rw [← h1]
    | true =>
      cases f with
      | none => simp [truthyStr] at hf
      | some fn =>
        have hfn : fn ≠ "" := by simpa [truthyStr] using hf
        rw [afterQid_logo env brand q fn gt hg hfn] at h
        rcases haf : afterFilename brand fn env with ⟨fr2, ft2⟩
        rw [haf] at h
        cases fr2 with
        | error e => exact absurd (congrArg Prod.fst h) (by simp)
        | ok trip2 =>
          have h1 := congrArg Prod.fst h
          simp at h1
          rw [← h1]
          exact afterFilename_fst env brand fn trip2 ft2 haf

theorem process_brand_fst (env : Env) (brand : String) :
    ((process_brand brand env).1).1 = brand := by
  rcases hr : wikidata_search_entity brand env with ⟨rr, rt⟩
  cases rr with
  | error e =>
    rw [process_brand_of_inner_err env brand e rt (inner_err env brand e rt hr)]
  | ok qid =>
    cases qid with
    | none =>
      rw [process_brand_of_inner_ok env brand _ _ (inner_noitem env brand rt hr)]
    | some q =>
      by_cases hq : q = ""
      · have hinner : process_brand_inner brand env
            = (Except.ok (brand, false, "No Wikidata item found"), rt ++ []) := by
          rw [process_brand_inner, mbind_ok _ _ _ _ _ hr]
          simp [hq, mpure]
        rw [process_brand_of_inner_ok env brand _ _ hinner]
      · rcases ha : afterQid brand q env with ⟨ar, at1⟩
        have hinner := inner_qid env brand q rt hr hq
        rw [ha] at hinner
        cases ar with
        | error e =>
          rw [process_brand_of_inner_err env brand e _ hinner]
        | ok trip =>
          rw [process_brand_of_inner_ok env brand _ _ hinner]
          exact afterQid_fst env brand q trip at1 ha

theorem afterBytes_write (env : Env) (brand : String) (bs : Bytes)
    (trip : String × Bool × String) (t : List Req)
    (h : afterBytes brand bs env = (Except.ok trip, t)) (hs : trip.2.1 = true) :
    t.filter isWriteReq = [Req.write (sanitize_filename brand ++ ".png")] := by
  cases himg : to_png_128 env.decode env.resample bs with
  | none =>
    rw [afterBytes_conv_fail env brand bs himg] at h
    have h1 := congrArg Prod.fst h
    simp at h1
    rw [← h1] at hs
    simp at hs
  | some img =>
    cases hsv : env.save (sanitize_filename brand ++ ".png") with
    | error e =>
      rw [afterBytes_save_err env brand bs img e himg hsv] at h
      exact absurd (congrArg Prod.fst h) (by simp)
    | ok u =>
      cases u
      rw [afterBytes_save_ok env brand bs img himg hsv] at h
      have h2 := congrArg Prod.snd h
      simp at h2
      rw [← h2]
      simp [List.filter, isWriteReq]

theorem afterFilename_write (env : Env) (brand fn : String)
    (trip : String × Bool × String) (t : List Req)
    (h : afterFilename brand fn env = (Except.ok trip, t)) (hs : trip.2.1 = true) :
    t.filter isWriteReq = [Req.write (sanitize_filename brand ++ ".png")] := by
  obtain ⟨ob, t2, hsh, hallurl⟩ := download_ok_shape env fn
  cases hob : truthyBytes ob with
  | false =>
    rw [afterFilename_dl_fail env brand fn ob t2 hsh hob] at h
    have h1 := congrArg Prod.fst h
    simp at h1
    rw [← h1] at hs
    simp at hs
  | true =>
    cases ob with
    | none => simp [truthyBytes] at hob
    | some bs =>
      cases bs with
      | nil => simp [truthyBytes] at hob
      | cons x xs =>
        rw [afterFilename_dl_ok env brand fn (x :: xs) t2 hsh (by simp)] at h
        rcases hab : afterBytes brand (x :: xs) env with ⟨ar, abt⟩
        rw [hab] at h
        cases ar with
        | error e => exact absurd (congrArg Prod.fst h) (by simp)
        | ok trip2 =>
          have h1 := congrArg Prod.fst h
          have h2 := congrArg Prod.snd h
          simp at h1 h2
          rw [← h2, List.filter_append,
            filter_write_of_kinds t2 (fun r hr => by
              have := hallurl r hr
              cases r <;> simp_all [isUrlReq, isWriteReq]),
            afterBytes_write env brand (x :: xs) trip2 abt hab (by rw [h1]; exact hs)]
          simp

theorem afterQid_write (env : Env) (brand q : String)
    (trip : String × Bool × String) (t : List Req)
    (h : afterQid brand q env = (Except.ok trip, t)) (hs : trip.2.1 = true) :
    t.filter isWriteReq = [Req.write (sanitize_filename brand ++ ".png")] := by
  rcases hg : wikidata_get_logo_filename q env with ⟨gr, gt⟩
  have hgt : gt = [Req.getClaims q] := by
    have h4 := logo_trace env q
    rw [hg] at h4
    simpa using h4
  cases gr with
  | error e =>
    rw [afterQid, mbind_err _ _ _ _ _ hg] at h
    exact absurd (congrArg Prod.fst h) (by simp)
  | ok f =>
    cases hf : truthyStr f with
    | false =>
      rw [afterQid_nologo env brand q f gt hg hf] at h
      have h1 := congrArg Prod.fst h
      simp at h1
      rw [← h1] at hs
      simp at hs
    | true =>
      cases f with
      | none => simp [truthyStr] at hf
      | some fn =>
        have hfn : fn ≠ "" := by simpa [truthyStr] using hf
        rw [afterQid_logo env brand q fn gt hg hfn] at h
        rcases haf : afterFilename brand fn env with ⟨fr2, ft2⟩
        rw [haf] at h
        cases fr2 with
        | error e => exact absurd (congrArg Prod.fst h) (by simp)
        | ok trip2 =>
          have h1 := congrArg Prod.fst h
          have h2 := congrArg Prod.snd h
          simp at h1 h2
          rw [← h2, List.filter_append, hgt]
          rw [afterFilename_write env brand fn trip2 ft2 haf (by rw [h1]; exact hs)]
          simp [List.filter, isWriteReq]

theorem process_success_write (env : Env) (brand : String)
    (hs : ((process_brand brand env).1).2.1 = true) :
    ((process_brand brand env).2).filter isWriteReq
      = [Req.write (sanitize_filename brand ++ ".png")] := by
  rcases hr : wikidata_search_entity brand env with ⟨rr, rt⟩
  have hrt : ∀ x ∈ rt, isWriteReq x = false := by
    intro x hx
    have hmem : x ∈ (wikidata_search_entity brand env).2 := by rw [hr]; exact hx
    rcases searchEntity_trace env brand x hmem with (h | h) | h
    · subst h; rfl
    · subst h; rfl
    · cases x <;> simp_all [isClaimsReq, isWriteReq]
  cases rr with
  | error e =>
    rw [process_brand_of_inner_err env brand e rt (inner_err env brand e rt hr)] at hs
    simp at hs
  | ok qid =>
    cases qid with
    | none =>
      rw [process_brand_of_inner_ok env brand _ _ (inner_noitem env brand rt hr)] at hs
      simp at hs
    | some q =>
      by_cases hq : q = ""
      · have hinner : process_brand_inner brand env
            = (Except.ok (brand, false, "No Wikidata item found"), rt ++ []) := by
          rw [process_brand_inner, mbind_ok _ _ _ _ _ hr]
          simp [hq, mpure]
        rw [process_brand_of_inner_ok env brand _ _ hinner] at hs
        simp at hs
      · rcases ha : afterQid brand q env with ⟨ar, at1⟩
        have hinner := inner_qid env brand q rt hr hq
        rw [ha] at hinner
        cases ar with
        | error e =>
          rw [process_brand_of_inner_err env brand e _ hinner] at hs
          simp at hs
        | ok trip =>
          rw [process_brand_of_inner_ok env brand _ _ hinner] at hs ⊢
          rw [List.filter_append, filter_write_of_kinds rt hrt,
            afterQid_write env brand q trip at1 ha hs]
          simp

/-! ### Short-circuit content lemmas -/

theorem short_circuit_noitem (env : Env) (brand : String)
    (h : (wikidata_search_entity brand env).1 = Except.ok none) :
    process_brand brand env = ((brand, false, "No Wikidata item found"),
      [Req.search brand "tr" 15, Req.search brand "en" 15]) := by
  rcases hr : wikidata_search_entity brand env with ⟨rr, rt⟩
  rw [hr] at h
  simp at h
  subst h
  have ht := searchEntity_none_trace env brand rt hr
  rw [process_brand_of_inner_ok env brand _ _ (inner_noitem env brand rt hr), ht]

theorem short_circuit_nologo (env : Env) (brand : String) (q : String) (f : Option String)
    (h1 : (wikidata_search_entity brand env).1 = Except.ok (some q))
    (h2 : (wikidata_get_logo_filename q env).1 = Except.ok f)
    (h3 : truthyStr f = false) :
    (process_brand brand env).1 = (brand, false, "No logo (P154) for " ++ q)
      ∧ ∀ r ∈ (process_brand brand env).2,
          isUrlReq r = false ∧ isDecodeReq r = false ∧ isWriteReq r = false := by
  rcases hr : wikidata_search_entity brand env with ⟨rr, rt⟩
  rw [hr] at h1
  simp at h1
  subst h1
  have hq := searchEntity_some_ne env brand q rt hr
  rcases hg : wikidata_get_logo_filename q env with ⟨gr, gt⟩
  rw [hg] at h2
  simp at h2
  subst h2
  have hgt : gt = [Req.getClaims q] := by
    have h4 := logo_trace env q
    rw [hg] at h4
    simpa using h4
  have haq := afterQid_nologo env brand q f gt hg h3
  have hinner := inner_qid env brand q rt hr hq
  rw [haq] at hinner
  rw [process_brand_of_inner_ok env brand _ _ hinner]
  constructor
  · rfl
  · intro r hrr
    simp only [hgt] at hrr
    simp [List.mem_append] at hrr
    rcases hrr with hrr | hrr
    · have hmem : r ∈ (wikidata_search_entity brand env).2 := by rw [hr]; exact hrr
      rcases searchEntity_trace env brand r hmem with (hx | hx) | hx
      · subst hx; exact ⟨rfl, rfl, rfl⟩
      · subst hx; exact ⟨rfl, rfl, rfl⟩
      · cases r <;> simp_all [isClaimsReq, isUrlReq, isDecodeReq, isWriteReq]
    · subst hrr; exact ⟨rfl, rfl, rfl⟩

theorem short_circuit_download (env : Env) (brand q fn : String) (ob : Option Bytes)
    (h1 : (wikidata_search_entity brand env).1 = Except.ok (some q))
    (h2 : (wikidata_get_logo_filename q env).1 = Except.ok (some fn))
    (h3 : fn ≠ "")
    (h4 : (download_commons_raster fn env).1 = Except.ok ob)
    (h5 : truthyBytes ob = false) :
    (process_brand brand env).1 = (brand, false, "Download failed")
      ∧ ∀ r ∈ (process_brand brand env).2, isDecodeReq r = false ∧ isWriteReq r = false := by
  rcases hr : wikidata_search_entity brand env with ⟨rr, rt⟩
  rw [hr] at h1
  simp at h1
  subst h1
  have hq := searchEntity_some_ne env brand q rt hr
  rcases hg : wikidata_get_logo_filename q env with ⟨gr, gt⟩
  rw [hg] at h2
  simp at h2
  subst h2
  have hgt : gt = [Req.getClaims q] := by
    have h6 := logo_trace env q
    rw [hg] at h6
    simpa using h6
  rcases hd : download_commons_raster fn env with ⟨dr, dt⟩
  rw [hd] at h4
  simp at h4
  subst h4
  have hdt : ∀ x ∈ dt, isUrlReq x = true := by
    intro x hx
    apply download_trace env fn x
    rw [hd]
    exact hx
  have hfd := afterFilename_dl_fail env brand fn ob dt hd h5
  have haq := afterQid_logo env brand q fn gt hg h3
  rw [hfd] at haq
  have hinner := inner_qid env brand q rt hr hq
  rw [haq] at hinner
  rw [process_brand_of_inner_ok env brand _ _ hinner]
  constructor
  · rfl
  · intro r hrr
    simp only [hgt] at hrr
    simp [List.mem_append] at hrr
    rcases hrr with hrr | hrr | hrr
    · have hmem : r ∈ (wikidata_search_entity brand env).2 := by rw [hr]; exact hrr
      rcases searchEntity_trace env brand r hmem with (hx | hx) | hx
      · subst hx; exact ⟨rfl, rfl⟩
      · subst hx; exact ⟨rfl, rfl⟩
      · cases r <;> simp_all [isClaimsReq, isDecodeReq, isWriteReq]
    · subst hrr; exact ⟨rfl, rfl⟩
    · have := hdt r hrr
      cases r <;> simp_all [isUrlReq, isDecodeReq, isWriteReq]

theorem short_circuit_conversion (env : Env) (brand q fn : String) (bs : Bytes)
    (h1 : (wikidata_search_entity brand env).1 = Except.ok (some q))
    (h2 : (wikidata_get_logo_filename q env).1 = Except.ok (some fn))
    (h3 : fn ≠ "")
    (h4 : (download_commons_raster fn env).1 = Except.ok (some bs))
    (h5 : bs ≠ [])
    (h6 : to_png_128 env.decode env.resample bs = none) :
    (process_brand brand env).1 = (brand, false, "Conversion failed")
      ∧ ∀ r ∈ (process_brand brand env).2, isWriteReq r = false := by
  rcases hr : wikidata_search_entity brand env with ⟨rr, rt⟩
  rw [hr] at h1
  simp at h1
  subst h1
  have hq := searchEntity_some_ne env brand q rt hr
  rcases hg : wikidata_get_logo_filename q env with ⟨gr, gt⟩
  rw [hg] at h2
  simp at h2
  subst h2
  have hgt : gt = [Req.getClaims q] := by
    have h7 := logo_trace env q
    rw [hg] at h7
    simpa using h7
  rcases hd : download_commons_raster fn env with ⟨dr, dt⟩
  rw [hd] at h4
  simp at h4
  subst h4
  have hdt : ∀ x ∈ dt, isUrlReq x = true := by
    intro x hx
    apply download_trace env fn x
    rw [hd]
    exact hx
  have hcf := afterBytes_conv_fail env brand bs h6
  have hfo := afterFilename_dl_ok env brand fn bs dt hd h5
  rw [hcf] at hfo
  have haq := afterQid_logo env brand q fn gt hg h3
  rw [hfo] at haq
  have hinner := inner_qid env brand q rt hr hq
  rw [haq] at hinner
  rw [process_brand_of_inner_ok env brand _ _ hinner]
  constructor
  · rfl
  · intro r hrr
    simp only [hgt] at hrr
    simp [List.mem_append] at hrr
    rcases hrr with hrr | hrr | hrr | hrr
    · have hmem : r ∈ (wikidata_search_entity brand env).2 := by rw [hr]; exact hrr
      rcases searchEntity_trace env brand r hmem with (hx | hx) | hx
      · subst hx; rfl
      · subst hx; rfl
      · cases r <;> simp_all [isClaimsReq, isWriteReq]
    · subst hrr; rfl
    · have := hdt r hrr
      cases r <;> simp_all [isUrlReq, isWriteReq]
    · subst hrr; rfl

/-! ### Evaluation of the normalizer -/

theorem to_png_128_eval (decode : Bytes → Option Img)
    (resample : Img → Nat × Nat → Nat → Nat → RGBA) (b : Bytes) (img : Img)
    (hdec : decode b = some img) :
    to_png_128 decode resample b
      = some (paste ⟨128, 128, fun _ _ => ⟨0, 0, 0, 0⟩⟩
          ⟨(containSize img.width img.height 112 112).1,
           (containSize img.width img.height 112 112).2,
           fun x y => resample img (containSize img.width img.height 112 112) x y⟩
          ((128 - (containSize img.width img.height 112 112).1) / 2)
          ((128 - (containSize img.width img.height 112 112).2) / 2)) := by
  simp only [to_png_128, hdec]

/-! ### Claim theorems -/

/-- C1: for every brand name, the entity resolver tries the primary
language ("tr") then the fallback ("en") in order; within each language's
candidate list (requested with limit 15, as the trace conjunct shows) it
scans in order and returns the first candidate whose logo-attribute fetch
yields a (truthy) filename; if no candidate has a logo but the list is
non-empty it returns the first candidate; a language with zero candidates
passes to the next; both empty yields no entity.  `resolveSpec` is the
specification-side restatement of this scan order; the theorem states the
code refines it whenever the consulted oracles respond. -/
theorem wikidata_search_entity_resolves (env : Env) (name : String)
    (lf : String → ClaimsResp) (rtr ren : List (Option String))
    (htr : env.search name "tr" 15 = Except.ok rtr)
    (hen : env.search name "en" 15 = Except.ok ren)
    (hcl : ∀ q, env.claims q = Except.ok (lf q)) :
    (wikidata_search_entity name env).1
        = Except.ok (resolveSpec (filterIds rtr) (filterIds ren) (logoOf lf))
      ∧ ∀ r ∈ (wikidata_search_entity name env).2,
          (r = Req.search name "tr" 15 ∨ r = Req.search name "en" 15)
            ∨ isClaimsReq r = true :=
  ⟨searchEntity_eval env name lf rtr ren htr hen hcl, searchEntity_trace env name⟩

/-- Witness for C1: with Turkish candidates `Q1, Q2` where only `Q2` has a
logo, the resolver skips `Q1` and returns `Q2`. -/
theorem wikidata_search_entity_resolves_witness :
    (wikidata_search_entity "acme" envTwoCands).1 = Except.ok (some "Q2") := by
  have h := (wikidata_search_entity_resolves envTwoCands "acme" lfC1
    [some "Q1", some "Q2"] [] (by simp [envTwoCands]) (by simp [envTwoCands])
    (fun q => rfl)).1
  rw [h]
  rfl

/-- C2: for every decodable input image with positive dimensions, the
normalizer returns an image that is exactly 128x128 (RGBA by the pixel
type); the content size is `containSize w h 112 112`, whose components
never exceed 112 and equal the proportionally rounded fit (aspect ratio
preserved up to rounding); the content is pasted at the centered offsets
`(128 - cw)/2, (128 - ch)/2`; every pixel outside that box is fully
transparent; and where the resampled source's own alpha (the paste mask)
is 0, the output stays fully transparent. -/
theorem to_png_128_normalizes (decode : Bytes → Option Img)
    (resample : Img → Nat × Nat → Nat → Nat → RGBA) (b : Bytes) (img : Img)
    (hdec : decode b = some img) (hw : 0 < img.width) (hh : 0 < img.height) :
    ∃ out : Img, to_png_128 decode resample b = some out
      ∧ out.width = 128 ∧ out.height = 128
      ∧ (containSize img.width img.height 112 112).1 ≤ 112
      ∧ (containSize img.width img.height 112 112).2 ≤ 112
      ∧ (img.height ≤ img.width →
          containSize img.width img.height 112 112
            = (112, pyRound (img.height * 112) img.width))
      ∧ (img.width ≤ img.height →
          containSize img.width img.height 112 112
            = (pyRound (img.width * 112) img.height, 112))
      ∧ (∀ x y : Nat,
          ¬((128 - (containSize img.width img.height 112 112).1) / 2 ≤ x
              ∧ x < (128 - (containSize img.width img.height 112 112).1) / 2
                  + (containSize img.width img.height 112 112).1
              ∧ (128 - (containSize img.width img.height 112 112).2) / 2 ≤ y
              ∧ y < (128 - (containSize img.width img.height 112 112).2) / 2
                  + (containSize img.width img.height 112 112).2) →
            out.pixel x y = transparent)
      ∧ (∀ x y : Nat,
          (resample img (containSize img.width img.height 112 112)
              (x - (128 - (containSize img.width img.height 112 112).1) / 2)
              (y - (128 - (containSize img.width img.height 112 112).2) / 2)).a = 0 →
            out.pixel x y = transparent) := by
  have hb := containSize_bounds img.width img.height hw hh
  refine ⟨_, to_png_128_eval decode resample b img hdec, rfl, rfl, hb.1, hb.2.1,
    fun hle => containSize_wide img.width img.height hw hle,
    fun hle => containSize_tall img.width img.height hh hle, ?_, ?_⟩
  · intro x y hxy
    simp only [paste]
    rw [if_neg hxy]
    rfl
  · intro x y ha
    simp only [paste]
    split_ifs with hin
    · simp [blendPx, blendChan, ha, transparent]
    · rfl

/-- Witness for C2 at a concrete 10x5 source image. -/
theorem to_png_128_normalizes_witness :
    ∃ out : Img, to_png_128 decode0 resample0 [0] = some out
      ∧ out.width = 128 ∧ out.height = 128 := by
  obtain ⟨out, h1, h2, h3, -⟩ :=
    to_png_128_normalizes decode0 resample0 [0] img10x5 rfl (by decide) (by decide)
  exact ⟨out, h1, h2, h3⟩

/-- Counterexample for C3: a 10x5 source fits strictly inside the 112x112
box, yet `ImageOps.contain` resizes it to 112x56 (upscaling), so its pixel
dimensions are not unchanged: the composite is opaque at (10, 64), a point
the claim (content of unchanged size 10x5 centered at column 59) would
require to be transparent. -/
theorem to_png_128_upscales :
    img10x5.width ≤ 112 ∧ img10x5.height ≤ 112
      ∧ containSize img10x5.width img10x5.height 112 112 ≠ (img10x5.width, img10x5.height)
      ∧ containSize img10x5.width img10x5.height 112 112 = (112, 56)
      ∧ outImg0.pixel 10 64 = ⟨255, 255, 255, 255⟩
      ∧ ¬((128 - img10x5.width) / 2 ≤ 10) := by
  refine ⟨by decide, by decide, by decide, by decide, ?_, by decide⟩
  decide

/-- C3 (amended): the normalizer scales the decoded image up or down to
fit the 112x112 box exactly: the composite is the `containSize`-resized
content pasted centered, both content sides are at most 112, and the
larger side is exactly 112 — so a source strictly smaller than the box is
scaled up rather than kept at its original size. -/
theorem to_png_128_fits_box (decode : Bytes → Option Img)
    (resample : Img → Nat × Nat → Nat → Nat → RGBA) (b : Bytes) (img : Img)
    (hdec : decode b = some img) (hw : 0 < img.width) (hh : 0 < img.height) :
    to_png_128 decode resample b
        = some (paste ⟨128, 128, fun _ _ => ⟨0, 0, 0, 0⟩⟩
            ⟨(containSize img.width img.height 112 112).1,
             (containSize img.width img.height 112 112).2,
             fun x y => resample img (containSize img.width img.height 112 112) x y⟩
            ((128 - (containSize img.width img.height 112 112).1) / 2)
            ((128 - (containSize img.width img.height 112 112).2) / 2))
      ∧ (containSize img.width img.height 112 112).1 ≤ 112
      ∧ (containSize img.width img.height 112 112).2 ≤ 112
      ∧ ((containSize img.width img.height 112 112).1 = 112
          ∨ (containSize img.width img.height 112 112).2 = 112) :=
  ⟨to_png_128_eval decode resample b img hdec,
   containSize_bounds img.width img.height hw hh⟩

/-- Witness for the amended C3 at the concrete 10x5 image. -/
theorem to_png_128_fits_box_witness :
    (containSize img10x5.width img10x5.height 112 112).1 ≤ 112
      ∧ (containSize img10x5.width img10x5.height 112 112).2 ≤ 112
      ∧ ((containSize img10x5.width img10x5.height 112 112).1 = 112
          ∨ (containSize img10x5.width img10x5.height 112 112).2 = 112) :=
  (to_png_128_fits_box decode0 resample0 [0] img10x5 rfl (by decide) (by decide)).2

/-- C4: per-brand processing never propagates an exception: the result is
a total record whose brand component is the input brand; when the inner
pipeline raises `e`, the record is `(brand, false, "Error: " ++ e)`; and
the batch continues — the driver still prints one line per brand plus the
summary. -/
theorem process_brand_catches (env : Env) (brand : String) :
    ((process_brand brand env).1).1 = brand
      ∧ (∀ e t, process_brand_inner brand env = (Except.error e, t) →
          process_brand brand env = ((brand, false, "Error: " ++ e), t))
      ∧ (fetch_logos_main env).1.length = (read_brands env.brandsFile).length + 1 := by
  refine ⟨process_brand_fst env brand,
    fun e t h => process_brand_of_inner_err env brand e t h, ?_⟩
  have hm := mainLoop_eval env (read_brands env.brandsFile) 0 0
  simp [fetch_logos_main, hm]

/-- Witness for C4: when the very first network call raises "boom", the
record is the converted error result. -/
theorem process_brand_catches_witness :
    process_brand "X" envBoom = (("X", false, "Error: boom"), [Req.search "X" "tr" 15]) :=
  (process_brand_catches envBoom "X").2.1 "boom" [Req.search "X" "tr" 15] rfl

/-- C5: a failure at any stage short-circuits the remaining stages with a
stage-specific reason: no entity resolved — the result is the no-item
record and the trace is exactly the two searches (no claims fetch, no
download, no decode, no write); entity but falsy logo filename — no-logo
record, no downloads/decodes/writes in the trace; truthy filename but
falsy download — download-failed record, no decodes/writes; non-empty
bytes that do not decode — conversion-failed record, no writes. -/
theorem process_brand_short_circuit (env : Env) (brand : String) :
    ((wikidata_search_entity brand env).1 = Except.ok none →
        process_brand brand env = ((brand, false, "No Wikidata item found"),
          [Req.search brand "tr" 15, Req.search brand "en" 15]))
      ∧ (∀ q f, (wikidata_search_entity brand env).1 = Except.ok (some q) →
          (wikidata_get_logo_filename q env).1 = Except.ok f →
          truthyStr f = false →
          (process_brand brand env).1 = (brand, false, "No logo (P154) for " ++ q)
            ∧ ∀ r ∈ (process_brand brand env).2,
                isUrlReq r = false ∧ isDecodeReq r = false ∧ isWriteReq r = false)
      ∧ (∀ q fn ob, (wikidata_search_entity brand env).1 = Except.ok (some q) →
          (wikidata_get_logo_filename q env).1 = Except.ok (some fn) →
          fn ≠ "" →
          (download_commons_raster fn env).1 = Except.ok ob →
          truthyBytes ob = false →
          (process_brand brand env).1 = (brand, false, "Download failed")
            ∧ ∀ r ∈ (process_brand brand env).2,
                isDecodeReq r = false ∧ isWriteReq r = false)
      ∧ (∀ q fn bs, (wikidata_search_entity brand env).1 = Except.ok (some q) →
          (wikidata_get_logo_filename q env).1 = Except.ok (some fn) →
          fn ≠ "" →
          (download_commons_raster fn env).1 = Except.ok (some bs) →
          bs ≠ [] →
          to_png_128 env.decode env.resample bs = none →
          (process_brand brand env).1 = (brand, false, "Conversion failed")
            ∧ ∀ r ∈ (process_brand brand env).2, isWriteReq r = false) :=
  ⟨short_circuit_noitem env brand,
   fun q f => short_circuit_nologo env brand q f,
   fun q fn ob => short_circuit_download env brand q fn ob,
   fun q fn bs => short_circuit_conversion env brand q fn bs⟩

/-- Witness for C5: zero candidates in both languages yields the no-item
record and a trace of exactly the two search requests. -/
theorem process_brand_short_circuit_witness :
    process_brand "Unknown Brand X" envNoHit
      = (("Unknown Brand X", false, "No Wikidata item found"),
         [Req.search "Unknown Brand X" "tr" 15, Req.search "Unknown Brand X" "en" 15]) :=
  (process_brand_short_circuit envNoHit "Unknown Brand X").1 rfl

/-- C6: the exit status is 0 when at least one brand succeeded and 1 when
none did, including the zero-brands case. -/
theorem main_exit_code (env : Env) :
    ((fetch_logos_main env).2
        = if 0 < (read_brands env.brandsFile).countP
              (fun b => ((process_brand b env).1).2.1)
          then 0 else 1)
      ∧ (read_brands env.brandsFile = [] → (fetch_logos_main env).2 = 1) := by
  have hm := mainLoop_eval env (read_brands env.brandsFile) 0 0
  constructor
  · simp [fetch_logos_main, hm]
  · intro h
    simp [fetch_logos_main, h, mainLoop]

/-- Witness for C6: with an empty brands file the exit code is 1. -/
theorem main_exit_code_witness : (fetch_logos_main envNoHit).2 = 1 :=
  (main_exit_code envNoHit).2 (by decide)

/-- C7: the brand list reader returns exactly the lines that are
non-empty after trimming and not comment-prefixed, each trimmed, in input
order (`specReadBrands` is the specification-side map-then-filter
formulation; the empty result is the `[]` value of the same type). -/
theorem read_brands_filters (text : String) :
    read_brands text = specReadBrands text := by
  rw [read_brands, specReadBrands]
  exact filter_map_comm (fun line => pyStrip line)
    (fun s => s != "" && !pyStartsWith s "#") (pyLines text)

/-- C8 (amended): every successfully processed brand writes exactly one
file, named by the sanitized brand plus ".png"; distinct brand names may
collide when they sanitize to the same string. -/
theorem process_brand_output_file (env : Env) (brand : String)
    (hs : ((process_brand brand env).1).2.1 = true) :
    ((process_brand brand env).2).filter isWriteReq
      = [Req.write (sanitize_filename brand ++ ".png")] :=
  process_success_write env brand hs

/-- Witness for C8 in the all-success environment. -/
theorem process_brand_output_file_witness :
    ((process_brand "BrandX" envOk).2).filter isWriteReq
      = [Req.write (sanitize_filename "BrandX" ++ ".png")] :=
  process_brand_output_file envOk "BrandX" (by decide)

/-- Counterexample for C8: the distinct brands "a/b" and "a_b" both
succeed and write the same file "a_b.png", so distinct successfully
processed brand names do not always yield distinct files. -/
theorem sanitize_filename_collision :
    ("a/b" : String) ≠ "a_b"
      ∧ sanitize_filename "a/b" = sanitize_filename "a_b"
      ∧ ((process_brand "a/b" envOk).1).2.1 = true
      ∧ ((process_brand "a_b" envOk).1).2.1 = true
      ∧ ((process_brand "a/b" envOk).2).filter isWriteReq
          = ((process_brand "a_b" envOk).2).filter isWriteReq := by
  refine ⟨by decide, by decide, by decide, by decide, by decide⟩

/-- C9: the downloader first issues exactly one request to the 1024px
thumbnail endpoint (URL-encoded filename); on failure it issues exactly
one request to the direct file-path endpoint; if both fail it returns the
falsy download-failed value, with no further request and no retry — the
trace in each case lists each endpoint at most once. -/
theorem download_commons_raster_fallback (env : Env) (filename : String) :
    download_commons_raster filename env =
      match env.http (thumbUrl filename) with
      | Except.ok content => (Except.ok (some content), [Req.getUrl (thumbUrl filename)])
      | Except.error _ =>
        match env.http (filePathUrl filename) with
        | Except.ok content =>
            (Except.ok (some content),
             [Req.getUrl (thumbUrl filename), Req.getUrl (filePathUrl filename)])
        | Except.error _ =>
            (Except.ok none,
             [Req.getUrl (thumbUrl filename), Req.getUrl (filePathUrl filename)]) :=
  download_eval env filename

/-- C10: the driver prints one status line per brand in input order, then
the summary line whose success and failure counts partition the input. -/
theorem main_reports_per_brand (env : Env) :
    (fetch_logos_main env).1
        = (read_brands env.brandsFile).map
            (fun b => statusLine ((process_brand b env).1))
          ++ ["Done. Success: "
                ++ toString ((read_brands env.brandsFile).countP
                      (fun b => ((process_brand b env).1).2.1))
                ++ ", Fail: "
                ++ toString ((read_brands env.brandsFile).countP
                      (fun b => !((process_brand b env).1).2.1))]
      ∧ (read_brands env.brandsFile).countP (fun b => ((process_brand b env).1).2.1)
          + (read_brands env.brandsFile).countP (fun b => !((process_brand b env).1).2.1)
        = (read_brands env.brandsFile).length := by
  have hm := mainLoop_eval env (read_brands env.brandsFile) 0 0
  exact ⟨by simp [fetch_logos_main, hm], countP_partition _ _⟩
